import Mathlib

/-!
Verification of the yeti ORM (src/yeti.py) against its natural-language
specification.  The Python module is shallowly embedded below: its pure
string/list manipulations become Lean functions, the sqlite connection is
modelled as an explicit store (`DB`) together with an abstract semantics for
the equality-`WHERE` `SELECT` statements the module generates, and Python
exceptions become `Except String`.  Python `dict`s (insertion ordered) are
modelled as ordered association lists.
-/

set_option autoImplicit false

namespace Yeti

/-- Python runtime value, restricted to what the ORM traffics in: strings,
integers, `None`, and model instances (a `vRec` carries the model name and the
instance's `field_dict`). -/
inductive Value where
  | vInt : Int → Value
  | vStr : String → Value
  | vNone : Value
  | vRec : String → List (String × Value) → Value

/-- Python `str()` of a value, as used by the `%s`-interpolation in the module
(`'%s="%s"' % (k, str(v))` and `"%s=%s" % (f_n, f_v)`). -/
def pyStr : Value → String
  | Value.vInt n => toString n
  | Value.vStr s => s
  | Value.vNone => "None"
  | Value.vRec _ _ => "<record>"

/-- Insertion-ordered string-keyed dictionary, the embedding of a Python
`dict` such as `Model.field_dict` or a `kwargs` mapping. -/
abbrev Dict := List (String × Value)

/-- Lookup, the embedding of Python `d.get(k)` (absent key gives `None`,
rendered here as `none`). -/
def dictGet (d : Dict) (k : String) : Option Value :=
  match d.find? (fun p => p.1 == k) with
  | some p => some p.2
  | none => none

/-- Assignment `d[k] = v` on an insertion-ordered dict: an existing key is
updated in place, a fresh key is appended. -/
def dictInsert (d : Dict) (k : String) (v : Value) : Dict :=
  if d.any (fun p => p.1 == k) then
    d.map (fun p => if p.1 == k then (k, v) else p)
  else
    d ++ [(k, v)]

/-- Kind of a field, one constructor per `Field` subclass of yeti.py.
`foreignKey` carries the name of the bound model (`bind_model`). -/
inductive FieldKind where
  | textField
  | integerField
  | realField
  | primaryKey : Bool → FieldKind
  | foreignKey : String → FieldKind

/-- A field descriptor: `name` is assigned at schema registration
(`ModelClass.__new__`), `unique`/`null` come from the `Field.__init__`
kwargs, `kind` selects the subclass behaviour. -/
structure Field where
  name : String
  kind : FieldKind
  unique : Bool := false
  null : Bool := true

/-- SQL type name of each field kind (`__sqlite_field_name__`). -/
def sqliteFieldName : FieldKind → String
  | FieldKind.textField => "TEXT"
  | FieldKind.integerField => "INTEGER"
  | FieldKind.realField => "REAL"
  | FieldKind.primaryKey _ => "INTEGER PRIMARY KEY"
  | FieldKind.foreignKey _ => "INTEGER"

/-- Column definition string (`Field.__get_sqlite_def__`, with the
`PrimaryKey` override appending `AUTOINCREMENT` after the base parts). -/
def Field.get_sqlite_def (f : Field) : String :=
  let sql_part := f.name ++ " " ++ sqliteFieldName f.kind
  let sql_part := if !f.null then sql_part ++ " NOT NULL" else sql_part
  let sql_part := if f.unique then sql_part ++ " UNIQUE" else sql_part
  match f.kind with
  | FieldKind.primaryKey true => sql_part ++ " AUTOINCREMENT"
  | _ => sql_part

/-- Field validation: the base `Field.validate` always succeeds, the
`TextField` override requires `isinstance(value, str)`. -/
def Field.validate (f : Field) (v : Value) : Bool :=
  match f.kind with
  | FieldKind.textField =>
    match v with
    | Value.vStr _ => true
    | _ => false
  | _ => true

/-- Doubling of embedded single quotes, the embedding of
`value.replace("'", "''")` in `TextField.prepare`. -/
def escapeQuotes (s : String) : String :=
  String.mk (s.data.foldr (fun c acc => if c = '\'' then c :: c :: acc else c :: acc) [])

/-- Field preparation before being put into a SQL query (`Field.prepare` and
its overrides).  The base class returns the value unchanged; `TextField`
single-quotes the escaped string; `ForeignKey` formats the bound record's
`id` with `'%d'`.  `none` models the `TypeError`/`AttributeError` Python
would raise on a value of the wrong shape. -/
def Field.prepare (f : Field) (v : Value) : Option Value :=
  match f.kind with
  | FieldKind.textField =>
    match v with
    | Value.vStr s => some (Value.vStr ("'" ++ escapeQuotes s ++ "'"))
    | _ => none
  | FieldKind.foreignKey _ =>
    match v with
    | Value.vRec _ fs =>
      match dictGet fs "id" with
      | some (Value.vInt n) => some (Value.vStr (toString n))
      | _ => none
    | _ => none
  | _ => some v

/-- A declared schema: the model's name and its fields in declaration order
(the `OrderedDict` collected by `ModelClass.__new__`). -/
structure ModelSchema where
  name : String
  fields : List Field

/-- Lookup of a field by name (`self.fields[field_name]` /
`field_name in self.fields`). -/
def ModelSchema.fieldByName (schema : ModelSchema) (n : String) : Option Field :=
  schema.fields.find? (fun f => f.name == n)

/-- A model instance: its `field_dict` and its `_new` flag. -/
structure Record where
  field_dict : Dict
  new : Bool

/-- Record construction (`Model.__init__`): keep a supplied `(name, value)`
pair exactly when the name is a declared field and the field validates the
value; everything else is silently dropped.  The instance starts with
`_new = True`. -/
def Model.init (schema : ModelSchema) (kwargs : Dict) : Record :=
  { field_dict := kwargs.foldl (fun field_dict kv =>
      match ModelSchema.fieldByName schema kv.1 with
      | some f =>
        if Field.validate f kv.2 then dictInsert field_dict kv.1 kv.2 else field_dict
      | none => field_dict) [],
    new := true }

/-- Attribute read on a record (`Model.__getattr__`): a declared field name
reads `field_dict.get(item)` (with `None` for a never-assigned field); any
other name falls through to `None`.  Note the function takes no database:
reading an attribute never touches storage. -/
def Record.getattr (schema : ModelSchema) (r : Record) (item : String) : Value :=
  match ModelSchema.fieldByName schema item with
  | some _ =>
    match dictGet r.field_dict item with
    | some v => v
    | none => Value.vNone
  | none => Value.vNone

/-- One sqlite table: the registered schema it was created from and its
stored rows, each row listing the column values in schema field order. -/
structure Table where
  schema : ModelSchema
  rows : List (List Value)

/-- The database: the registry of models in registration order together with
the stored rows of each (the sqlite file's contents). -/
structure DB where
  tables : List Table

/-- Lookup of a table (and its schema) by model name. -/
def DB.findTable (db : DB) (n : String) : Option Table :=
  db.tables.find? (fun t => t.schema.name == n)

/-- Comma join, the embedding of `", ".join(...)` over strings. -/
def joinComma (l : List String) : String :=
  String.intercalate ", " l

/-- Semantics of the generated equality `WHERE` clause: sqlite compares each
filtered column of a row against the interpolated literal `"str(v)"`; with
sqlite's affinity conversions this holds exactly when the stored value and
the filter value print alike.  A filter naming an undeclared column matches
nothing. -/
def rowMatches (schema : ModelSchema) (row : List Value) (filt : Dict) : Bool :=
  filt.all (fun kv =>
    match schema.fields.findIdx? (fun f => f.name == kv.1) with
    | some i =>
      match row.get? i with
      | some stored => pyStr stored == pyStr kv.2
      | none => false
    | none => false)

/-- The `WHERE` string built by `Model.get`/`Model.get_all`:
`'%s="%s"' % (k, str(v))` joined with `" AND "`, empty when no filters. -/
def whereString (filt : Dict) : String :=
  let where_list := filt.map (fun kv => kv.1 ++ "=\"" ++ pyStr kv.2 ++ "\"")
  if where_list.isEmpty then "" else "WHERE " ++ String.intercalate " AND " where_list

/-- The `SELECT` statement text built by `Model.get`/`Model.get_all`:
field names joined in declaration order (`", ".join(cls.fields)`). -/
def Model.selectSql (schema : ModelSchema) (filt : Dict) : String :=
  let field_names := joinComma (schema.fields.map Field.name)
  "SELECT " ++ field_names ++ " FROM " ++ schema.name ++ " " ++ whereString filt ++ ";"

/-- Field decoding (`Field.get` and the `ForeignKey.get` override),
parameterised by the recursive model lookup `recur` standing for the bound
model's `get` method.  The base class returns the stored value unchanged;
`ForeignKey.get` runs `self.bind_model.get(id=value)` and yields the record
found (or `None`). -/
def fieldGetWith (recur : DB → ModelSchema → Dict → Except String (Option Record))
    (db : DB) (field : Field) (value : Value) : Except String Value :=
  match field.kind with
  | FieldKind.foreignKey bind =>
    match DB.findTable db bind with
    | none => Except.error ("no such table: " ++ bind)
    | some bt =>
      match recur db bt.schema [("id", value)] with
      | Except.error e => Except.error e
      | Except.ok (some bind_obj) => Except.ok (Value.vRec bind bind_obj.field_dict)
      | Except.ok none => Except.ok Value.vNone
  | _ => Except.ok value

/-- Decoding of a fetched row into the `query_dict` of `Model.get`: each
`(column name, raw value)` pair is passed through its field's `get`. -/
def decodeWith (recur : DB → ModelSchema → Dict → Except String (Option Record))
    (db : DB) (schema : ModelSchema) : Dict → Except String Dict
  | [] => Except.ok []
  | kv :: rest =>
    match ModelSchema.fieldByName schema kv.1 with
    | none => Except.error ("KeyError: " ++ kv.1)
    | some field =>
      match fieldGetWith recur db field kv.2 with
      | Except.error e => Except.error e
      | Except.ok v =>
        match decodeWith recur db schema rest with
        | Except.error e => Except.error e
        | Except.ok tail => Except.ok ((kv.1, v) :: tail)

/-- One unfolding of `Model.get`: select the first matching row, decode every
column through its field's `get` (foreign keys re-entering `get` on the bound
model via `recur`), construct the record through `Model.__init__`, and mark
it `_new = False`.  No matching row yields `None`. -/
def getStep (recur : DB → ModelSchema → Dict → Except String (Option Record))
    (db : DB) (schema : ModelSchema) (filt : Dict) : Except String (Option Record) :=
  match DB.findTable db schema.name with
  | none => Except.error ("no such table: " ++ schema.name)
  | some t =>
    match t.rows.find? (fun row => rowMatches schema row filt) with
    | none => Except.ok none
    | some query_result =>
      match decodeWith recur db schema
          (List.zip (schema.fields.map Field.name) query_result) with
      | Except.error e => Except.error e
      | Except.ok query_dict =>
        Except.ok (some { Model.init schema query_dict with new := false })

/-- The classmethod `Model.get`, with fuel bounding the recursion depth of
foreign-key resolution (exhausted fuel models Python's `RecursionError` on a
cyclic foreign-key chain). -/
def Model.get : Nat → DB → ModelSchema → Dict → Except String (Option Record)
  | 0, _, _, _ => Except.error "maximum recursion depth exceeded"
  | fuel + 1, db, schema, filt => getStep (Model.get fuel) db schema filt

/-- The method `Field.get` (resp. the `ForeignKey.get` override) as called
with a given recursion budget. -/
def Field.get (fuel : Nat) (db : DB) (field : Field) (value : Value) : Except String Value :=
  fieldGetWith (Model.get fuel) db field value

/-- The classmethod `Model.get_all`: fetch every matching row and build one
record per row from the RAW column values (no `Field.get` decoding — note the
function needs no fuel because it never resolves a foreign key), each marked
`_new = False`.  An empty result set falls through to `None`, not `[]`. -/
def Model.get_all (db : DB) (schema : ModelSchema) (filt : Dict) :
    Except String (Option (List Record)) :=
  match DB.findTable db schema.name with
  | none => Except.error ("no such table: " ++ schema.name)
  | some t =>
    let query_results := t.rows.filter (fun row => rowMatches schema row filt)
    if query_results.isEmpty then
      Except.ok none
    else
      Except.ok (some (query_results.map (fun query_result =>
        { Model.init schema (List.zip (schema.fields.map Field.name) query_result) with
            new := false })))

/-- A DML statement built by `Model.presave`: either
`INSERT INTO t (cols) VALUES (vals);` or `UPDATE t SET c=v, ... WHERE id=n;`
(the update's `sets` keep the `"%s=%s"`-rendered value strings). -/
inductive SqlStmt where
  | insert : String → List String → List String → SqlStmt
  | update : String → List (String × String) → Int → SqlStmt

/-- Discriminator for the INSERT shape. -/
def SqlStmt.isInsert : SqlStmt → Bool
  | SqlStmt.insert _ _ _ => true
  | SqlStmt.update _ _ _ => false

/-- Discriminator for the UPDATE shape. -/
def SqlStmt.isUpdate : SqlStmt → Bool
  | SqlStmt.insert _ _ _ => false
  | SqlStmt.update _ _ _ => true

/-- The field-preparation loop of `Model.presave`: walk `field_dict` in
order, look each name up in `self.fields` (a missing name models the
`KeyError`) and prepare the value.  Returns the `(field_names, field_values)`
pairs in `field_dict` order. -/
def prepareFields (schema : ModelSchema) : Dict → Except String (List (String × Value))
  | [] => Except.ok []
  | kv :: rest =>
    match ModelSchema.fieldByName schema kv.1 with
    | none => Except.error ("KeyError: " ++ kv.1)
    | some field_obj =>
      match Field.prepare field_obj kv.2 with
      | none => Except.error "TypeError: bad value in prepare"
      | some pv =>
        match prepareFields schema rest with
        | Except.error e => Except.error e
        | Except.ok tail => Except.ok ((kv.1, pv) :: tail)

/-- The `", ".join(field_values)` of the INSERT branch: Python's `str.join`
raises `TypeError` unless every prepared value is a string (so e.g. an
`IntegerField`, whose `prepare` is the identity, breaks the INSERT path). -/
def joinValues : List Value → Except String (List String)
  | [] => Except.ok []
  | Value.vStr s :: rest =>
    match joinValues rest with
    | Except.error e => Except.error e
    | Except.ok tail => Except.ok (s :: tail)
  | _ :: _ => Except.error "TypeError: sequence item: expected str instance"

/-- The statement built by `Model.presave` (before execution): an INSERT when
`self._new`, otherwise an UPDATE keyed by `id=%d % self['id']` (non-integer
or missing `id` models the `TypeError` of the `%d` format).  The update's
`SET` pairs are the `"%s=%s"`-rendered `fields_sets`. -/
def Record.presave (schema : ModelSchema) (r : Record) : Except String SqlStmt :=
  match prepareFields schema r.field_dict with
  | Except.error e => Except.error e
  | Except.ok prepared =>
    let field_names := prepared.map Prod.fst
    let fields_sets := prepared.map (fun kv => (kv.1, pyStr kv.2))
    if r.new then
      match joinValues (prepared.map Prod.snd) with
      | Except.error e => Except.error e
      | Except.ok field_values => Except.ok (SqlStmt.insert schema.name field_names field_values)
    else
      match dictGet r.field_dict "id" with
      | some (Value.vInt n) => Except.ok (SqlStmt.update schema.name fields_sets n)
      | _ => Except.error "TypeError: %d format: a number is required"

/-- Observable outcome of `Model.save`: the statement handed to
`Database.execute`, the message logged when the execution raised
`sqlite3.IntegrityError` (caught inside `presave`), and whether `commit`
ran. -/
structure SaveOutcome where
  executed : SqlStmt
  logged : Option String
  committed : Bool

/-- The method `Model.save` (presave + commit) run against an execution
oracle `exec` which reports `some msg` when the statement raises an
integrity error.  The `except sqlite3.IntegrityError` clause turns that
into a log line and FALLS THROUGH: save still commits and returns normally,
handing back the record object unchanged — in particular no code path ever
flips `_new` to `False` after an INSERT. -/
def Model.saveStep (exec : SqlStmt → Option String) (schema : ModelSchema) (r : Record) :
    Except String (Record × SaveOutcome) :=
  match Record.presave schema r with
  | Except.error e => Except.error e
  | Except.ok stmt => Except.ok (r, { executed := stmt, logged := exec stmt, committed := true })

/-- An operation performed by `Database.init` on the connection. -/
inductive DbOp where
  | exec : String → DbOp
  | commitOp : DbOp

/-- Discriminator for the commit operation. -/
def DbOp.isCommit : DbOp → Bool
  | DbOp.exec _ => false
  | DbOp.commitOp => true

/-- The method `Database.init(not_exists)`: for every registered model, in
registration order, build and execute its `CREATE TABLE` statement, then
commit once after the loop.  The result is the ordered trace of connection
operations. -/
def Database.init (db : DB) (not_exists : Bool) : List DbOp :=
  (db.tables.foldl (fun ops t =>
    let sql_query_part := joinComma (t.schema.fields.map Field.get_sqlite_def)
    let if_not_exists := if not_exists then " IF NOT EXISTS" else ""
    let sql_query := "CREATE TABLE" ++ if_not_exists ++ " " ++ t.schema.name ++
      " (" ++ sql_query_part ++ ");"
    ops ++ [DbOp.exec sql_query]) []) ++ [DbOp.commitOp]

/-- The singleton state of the `Database` class: the per-process instance, if
one has been created. -/
structure DatabaseInstance where
  name : String

/-- The override `Database.__new__`: called without a name it demands an
existing instance (raising otherwise) and returns it unchanged; called with a
name it installs a fresh instance for that name. -/
def Database.new (inst : Option DatabaseInstance) (name : Option String) :
    Except String DatabaseInstance :=
  match name with
  | none =>
    match inst with
    | none => Except.error "Database not set. Please, set the database name before defining the models"
    | some i => Except.ok i
  | some n => Except.ok { name := n }

/-! Concrete fixtures used by the claim theorems: a `User` model (integer
`id`, text `name`), a `Pet` model whose `owner` is a foreign key into `User`,
a two-table database holding one row each, and a two-text-field model `T`. -/

/-- Field `id = IntegerField()` of the `User` model. -/
def idField : Field := { name := "id", kind := FieldKind.integerField }

/-- Field `name = TextField()` of the `User` model. -/
def nameField : Field := { name := "name", kind := FieldKind.textField }

/-- The declared model `User(Model)` with fields `id`, `name`. -/
def userSchema : ModelSchema := { name := "User", fields := [idField, nameField] }

/-- Field `owner = ForeignKey(User)` of the `Pet` model. -/
def ownerField : Field := { name := "owner", kind := FieldKind.foreignKey "User" }

/-- The declared model `Pet(Model)` with fields `id`, `owner`. -/
def petSchema : ModelSchema := { name := "Pet", fields := [idField, ownerField] }

/-- The `User` table holding one row `(1, 'Ann')`. -/
def userTable : Table := { schema := userSchema, rows := [[Value.vInt 1, Value.vStr "Ann"]] }

/-- The `Pet` table holding one row `(1, 1)` whose `owner` column stores the
id of the `Ann` row. -/
def petTable : Table := { schema := petSchema, rows := [[Value.vInt 1, Value.vInt 1]] }

/-- A database with the `User` and `Pet` tables. -/
def db2 : DB := { tables := [userTable, petTable] }

/-- Field `a = TextField()` of the model `T`. -/
def aField : Field := { name := "a", kind := FieldKind.textField }

/-- Field `b = TextField()` of the model `T`. -/
def bField : Field := { name := "b", kind := FieldKind.textField }

/-- A model `T` with two text fields declared in the order `a`, `b`. -/
def schemaT : ModelSchema := { name := "T", fields := [aField, bField] }

/-- A freshly constructed `User(name='Ann')` record (state: new). -/
def annR : Record := Model.init userSchema [("name", Value.vStr "Ann")]

/-- An execution oracle under which every statement succeeds. -/
def execOk : SqlStmt → Option String := fun _ => none

/-- An execution oracle under which every statement raises
`sqlite3.IntegrityError` with the given message. -/
def execBad : SqlStmt → Option String := fun _ => some "UNIQUE constraint failed: User.name"

/-- A persisted `User` record (as returned by `get`) with `id=7`. -/
def bo7 : Record := { field_dict := [("id", Value.vInt 7), ("name", Value.vStr "Bo")], new := false }

/-- The record `Model.get` produces for `Pet.get(id=1)` on `db2`: the
`owner` column is already resolved to the full `User` record. -/
def petRec : Record :=
  { field_dict := [("id", Value.vInt 1),
      ("owner", Value.vRec "User" [("id", Value.vInt 1), ("name", Value.vStr "Ann")])],
    new := false }

/-- A `T` record constructed with its fields supplied in the order `b`, `a`,
i.e. against declaration order. -/
def rBA : Record := Model.init schemaT [("b", Value.vStr "y"), ("a", Value.vStr "x")]

/-- A kwargs mapping supplying a valid `a`, a `b` failing text validation,
and an undeclared name `zz`. -/
def kwargsW : Dict := [("a", Value.vStr "x"), ("b", Value.vInt 9), ("zz", Value.vStr "q")]

/-- The INSERT statement `presave` builds for `annR`. -/
def annInsert : SqlStmt := SqlStmt.insert "User" ["name"] ["'Ann'"]

/-- The save outcome for `annR` under the always-succeeding oracle. -/
def annOutcome : SaveOutcome := { executed := annInsert, logged := none, committed := true }

/-- The save outcome for `annR` under the always-failing oracle: the
integrity error is logged, the commit still runs. -/
def annBadOutcome : SaveOutcome :=
  { executed := annInsert, logged := some "UNIQUE constraint failed: User.name", committed := true }

/-- The record `Model.get_all` produces for the `Pet` row of `db2`: the
`owner` column keeps the RAW stored id `1`, undecoded. -/
def petRawRec : Record :=
  { field_dict := [("id", Value.vInt 1), ("owner", Value.vInt 1)], new := false }

/-- Predicate: `Model.__init__` keeps a supplied `(name, value)` pair — the
name is a declared field and the field's `validate` accepts the value. -/
def keptPair (schema : ModelSchema) (kv : String × Value) : Bool :=
  match ModelSchema.fieldByName schema kv.1 with
  | some f => Field.validate f kv.2
  | none => false

/-- The `CREATE TABLE` statement text `Database.init` builds for one
registered model (column definitions in field declaration order, the
`IF NOT EXISTS` clause present exactly when the flag is set). -/
def createSql (not_exists : Bool) (t : Table) : String :=
  "CREATE TABLE" ++ (if not_exists then " IF NOT EXISTS" else "") ++ " " ++ t.schema.name ++
    " (" ++ joinComma (t.schema.fields.map Field.get_sqlite_def) ++ ");"

/-! Helper lemmas shared by the claim theorems. -/

/-- Assigning a key not yet present appends the pair at the end. -/
theorem dictInsert_fresh (d : Dict) (k : String) (v : Value)
    (h : d.any (fun p => p.1 == k) = false) : dictInsert d k v = d ++ [(k, v)] := by
  simp [dictInsert, h]

/-- The construction fold of `Model.__init__` keeps exactly the pairs
accepted by `keptPair`, in supplied order, provided the supplied keys are
distinct (as Python `kwargs` keys always are). -/
theorem init_foldl (schema : ModelSchema) (kwargs : Dict) :
    ∀ d : Dict, (∀ kv ∈ kwargs, ∀ p ∈ d, p.1 ≠ kv.1) →
    (kwargs.map Prod.fst).Nodup →
    kwargs.foldl (fun field_dict kv =>
      match ModelSchema.fieldByName schema kv.1 with
      | some f =>
        if Field.validate f kv.2 then dictInsert field_dict kv.1 kv.2 else field_dict
      | none => field_dict) d
    = d ++ kwargs.filter (keptPair schema) := by
  induction kwargs with
  | nil => intro d _ _; simp
  | cons kv rest ih =>
    intro d hfresh hnd
    simp only [List.map_cons, List.nodup_cons] at hnd
    have hstep : (match ModelSchema.fieldByName schema kv.1 with
        | some f =>
          if Field.validate f kv.2 then dictInsert d kv.1 kv.2 else d
        | none => d)
        = if keptPair schema kv then d ++ [kv] else d := by
      cases hf : ModelSchema.fieldByName schema kv.1 with
      | none => simp [keptPair, hf]
      | some f =>
        simp only [keptPair, hf]
        cases hv : Field.validate f kv.2 with
        | false => simp
        | true =>
          simp only [if_true]
          have hany : d.any (fun p => p.1 == kv.1) = false := by
            rw [List.any_eq_false]
            intro p hp
            simpa using hfresh kv (List.mem_cons_self kv rest) p hp
          exact dictInsert_fresh d kv.1 kv.2 hany
    simp only [List.foldl_cons, hstep]
    cases hk : keptPair schema kv with
    | false =>
      rw [if_neg Bool.false_ne_true]
      rw [ih d (fun kv' h' p hp => hfresh kv' (List.mem_cons_of_mem kv h') p hp) hnd.2]
      rw [List.filter_cons_of_neg (by simp [hk])]
    | true =>
      rw [if_pos rfl]
      have hfresh' : ∀ kv' ∈ rest, ∀ p ∈ d ++ [kv], p.1 ≠ kv'.1 := by
        intro kv' h' p hp
        rcases List.mem_append.mp hp with hpd | hpkv
        · exact hfresh kv' (List.mem_cons_of_mem kv h') p hpd
        · have hp' : p = kv := by simpa using hpkv
          subst hp'
          intro hcontra
          refine hnd.1 ?_
          rw [hcontra]
          exact List.mem_map_of_mem Prod.fst h'
      rw [ih (d ++ [kv]) hfresh' hnd.2, List.filter_cons_of_pos (by simp [hk]),
        List.append_assoc]
      rfl

/-- The prepared `(name, value)` pairs of `presave` keep the `field_dict`
names in order. -/
theorem prepareFields_names (schema : ModelSchema) :
    ∀ (d : Dict) (ps : List (String × Value)),
      prepareFields schema d = Except.ok ps → ps.map Prod.fst = d.map Prod.fst := by
  intro d
  induction d with
  | nil =>
    intro ps h
    simp only [prepareFields] at h
    injection h with h'
    subst h'
    rfl
  | cons kv rest ih =>
    intro ps h
    simp only [prepareFields] at h
    split at h
    · exact Except.noConfusion h
    · split at h
      · exact Except.noConfusion h
      · split at h
        · exact Except.noConfusion h
        · next tail htail =>
          injection h with h'
          subst h'
          simp [ih tail htail]

/-- A record still flagged `_new` always presaves to an INSERT. -/
theorem presave_new_isInsert (schema : ModelSchema) (r : Record) (stmt : SqlStmt)
    (hnew : r.new = true) (h : Record.presave schema r = Except.ok stmt) :
    SqlStmt.isInsert stmt = true := by
  simp only [Record.presave, hnew, if_true] at h
  split at h
  · exact Except.noConfusion h
  · split at h
    · exact Except.noConfusion h
    · injection h with h'
      subst h'
      rfl

/-- A record no longer flagged `_new` presaves to an UPDATE on the model's
table, keyed by the integer `id` stored in its `field_dict`. -/
theorem presave_old_update (schema : ModelSchema) (r : Record) (stmt : SqlStmt)
    (hnew : r.new = false) (h : Record.presave schema r = Except.ok stmt) :
    ∃ sets n, stmt = SqlStmt.update schema.name sets n ∧
      dictGet r.field_dict "id" = some (Value.vInt n) := by
  simp only [Record.presave, hnew] at h
  split at h
  · exact Except.noConfusion h
  · rw [if_neg Bool.false_ne_true] at h
    split at h
    · next n heq =>
      injection h with h'
      subst h'
      exact ⟨_, n, rfl, heq⟩
    · exact Except.noConfusion h

/-- A successful presave to an INSERT targets the model's table and lists
the columns exactly in `field_dict` order. -/
theorem presave_insert_shape (schema : ModelSchema) (r : Record) (tn : String)
    (cols vals : List String)
    (h : Record.presave schema r = Except.ok (SqlStmt.insert tn cols vals)) :
    tn = schema.name ∧ cols = r.field_dict.map Prod.fst := by
  simp only [Record.presave] at h
  split at h
  · exact Except.noConfusion h
  · next prepared hp =>
    cases hnv : r.new with
    | false =>
      rw [hnv, if_neg Bool.false_ne_true] at h
      split at h
      · injection h with h'
        exact SqlStmt.noConfusion h'
      · exact Except.noConfusion h
    | true =>
      rw [hnv, if_pos rfl] at h
      split at h
      · exact Except.noConfusion h
      · injection h with h'
        injection h' with e1 e2 e3
        exact ⟨e1.symm, e2.symm.trans (prepareFields_names schema r.field_dict prepared hp)⟩

/-- Projecting the first components of a zip is a sublist of the first list. -/
theorem map_fst_zip_sublist {α β : Type} (l1 : List α) (l2 : List β) :
    List.Sublist ((List.zip l1 l2).map Prod.fst) l1 := by
  induction l1 generalizing l2 with
  | nil => simp
  | cons a l1 ih =>
    cases l2 with
    | nil => simp
    | cons b l2 => simpa using List.Sublist.cons₂ a (ih l2)

/-- The DDL loop of `Database.init` emits one `CREATE TABLE` execution per
registered model, in order. -/
theorem init_ops (not_exists : Bool) (ts : List Table) (acc : List DbOp) :
    ts.foldl (fun ops t =>
      let sql_query_part := joinComma (t.schema.fields.map Field.get_sqlite_def)
      let if_not_exists := if not_exists then " IF NOT EXISTS" else ""
      let sql_query := "CREATE TABLE" ++ if_not_exists ++ " " ++ t.schema.name ++
        " (" ++ sql_query_part ++ ");"
      ops ++ [DbOp.exec sql_query]) acc
    = acc ++ ts.map (fun t => DbOp.exec (createSql not_exists t)) := by
  induction ts generalizing acc with
  | nil => simp
  | cons t ts ih => simp [ih, createSql]

/-- A list of executions contains no commit. -/
theorem filter_isCommit_map_exec (g : Table → String) (ts : List Table) :
    (ts.map (fun t => DbOp.exec (g t))).filter DbOp.isCommit = [] := by
  induction ts with
  | nil => rfl
  | cons t ts ih =>
    rw [List.map_cons, List.filter_cons_of_neg (by simp [DbOp.isCommit])]
    exact ih

/-! Claim theorems. -/

/-- Claim C1, counterexample.  The claim says the first `save()` transitions
a new Record to the persisted state so that a second `save()` issues an
UPDATE.  On the code this is false: `presave`/`save` never clear `_new`, so
`save()` on the fresh `User(name='Ann')` record hands back the very same
record, still flagged new, and its next `presave` is again the INSERT shown
— not an UPDATE. -/
theorem c1_counterexample :
    Model.saveStep execOk userSchema annR = Except.ok (annR, annOutcome) ∧
    annR.new = true ∧
    Record.presave userSchema annR = Except.ok annInsert ∧
    SqlStmt.isUpdate annInsert = false :=
  ⟨rfl, rfl, rfl, rfl⟩

/-- Claim C1, amended: `save()` returns with the record object unchanged —
in particular `_new` is never cleared — so a record flagged new presaves to
an INSERT on every save, and only a record flagged persisted (as fetched by
`get`/`get_all`) presaves to an UPDATE keyed by the integer `id` stored in
its field mapping. -/
theorem c1_save_keeps_state (exec : SqlStmt → Option String) (schema : ModelSchema)
    (r : Record) (out : Record × SaveOutcome)
    (h : Model.saveStep exec schema r = Except.ok out) :
    out.1 = r ∧
    (r.new = true → SqlStmt.isInsert out.2.executed = true) ∧
    (r.new = false → ∃ sets n, out.2.executed = SqlStmt.update schema.name sets n ∧
      dictGet r.field_dict "id" = some (Value.vInt n)) := by
  simp only [Model.saveStep] at h
  cases hps : Record.presave schema r with
  | error e => rw [hps] at h; exact Except.noConfusion h
  | ok stmt =>
    rw [hps] at h
    injection h with h'
    subst h'
    exact ⟨rfl,
      fun hnew => presave_new_isInsert schema r stmt hnew hps,
      fun hnew => presave_old_update schema r stmt hnew hps⟩

/-- Claim C1, witness: the amended theorem applied to the fresh
`User(name='Ann')` record under the always-succeeding oracle. -/
theorem c1_witness :
    Model.saveStep execOk userSchema annR = Except.ok (annR, annOutcome) ∧
    ((annR, annOutcome).1 = annR ∧
      (annR.new = true → SqlStmt.isInsert (annR, annOutcome).2.executed = true) ∧
      (annR.new = false → ∃ sets n,
        (annR, annOutcome).2.executed = SqlStmt.update userSchema.name sets n ∧
        dictGet annR.field_dict "id" = some (Value.vInt n))) :=
  ⟨rfl, c1_save_keeps_state execOk userSchema annR (annR, annOutcome) rfl⟩

/-- Claim C2, counterexample.  The claim says the INSERT column list always
equals declaration order.  Constructing a `T` record with its fields
supplied as `b`, `a` makes `presave` emit the columns in that supplied
order, which differs from the declaration order `a`, `b`. -/
theorem c2_counterexample :
    Record.presave schemaT rBA = Except.ok (SqlStmt.insert "T" ["b", "a"] ["'y'", "'x'"]) ∧
    schemaT.fields.map Field.name = ["a", "b"] ∧
    (["b", "a"] : List String) ≠ ["a", "b"] :=
  ⟨rfl, rfl, by decide⟩

/-- Claim C2, amended: `CREATE TABLE` and `SELECT` both use the field names
in declaration order, but the INSERT column list follows the record's
`field_dict` order (the order in which field values were supplied), which
coincides with declaration order only when the fields were supplied that
way. -/
theorem c2_column_orders (schema : ModelSchema) (r : Record) (tn : String)
    (cols vals : List String) (filt : Dict) (rows : List (List Value)) (ne : Bool)
    (h : Record.presave schema r = Except.ok (SqlStmt.insert tn cols vals)) :
    tn = schema.name ∧
    cols = r.field_dict.map Prod.fst ∧
    Model.selectSql schema filt = "SELECT " ++ joinComma (schema.fields.map Field.name) ++
      " FROM " ++ schema.name ++ " " ++ whereString filt ++ ";" ∧
    Database.init { tables := [{ schema := schema, rows := rows }] } ne
      = [DbOp.exec ("CREATE TABLE" ++ (if ne then " IF NOT EXISTS" else "") ++ " " ++
          schema.name ++ " (" ++ joinComma (schema.fields.map Field.get_sqlite_def) ++ ");"),
        DbOp.commitOp] := by
  obtain ⟨h1, h2⟩ := presave_insert_shape schema r tn cols vals h
  exact ⟨h1, h2, rfl, rfl⟩

/-- Claim C2, witness: the amended theorem applied to the record `rBA`
(fields supplied as `b`, `a`): its INSERT columns are its `field_dict`
order `[b, a]`. -/
theorem c2_witness :
    Record.presave schemaT rBA = Except.ok (SqlStmt.insert "T" ["b", "a"] ["'y'", "'x'"]) ∧
    ("T" = schemaT.name ∧
      (["b", "a"] : List String) = rBA.field_dict.map Prod.fst ∧
      Model.selectSql schemaT [] = "SELECT " ++ joinComma (schemaT.fields.map Field.name) ++
        " FROM " ++ schemaT.name ++ " " ++ whereString [] ++ ";" ∧
      Database.init { tables := [{ schema := schemaT, rows := [] }] } false
        = [DbOp.exec ("CREATE TABLE" ++ (if false then " IF NOT EXISTS" else "") ++ " " ++
            schemaT.name ++ " (" ++ joinComma (schemaT.fields.map Field.get_sqlite_def) ++ ");"),
          DbOp.commitOp]) :=
  ⟨rfl, c2_column_orders schemaT rBA "T" ["b", "a"] ["'y'", "'x'"] [] [] false rfl⟩

/-- Claim C3, counterexample.  The claim says building a Record from a
fetched row performs no referenced-schema lookup (lazy decoding).  On the
code `Model.get` passes every column through `Field.get` while building
`query_dict`, so `Pet.get(id=1)` on `db2` already stores the fully resolved
`User` record — not the stored id `1` — in its `owner` slot. -/
theorem c3_counterexample :
    Model.get 2 db2 petSchema [("id", Value.vInt 1)] = Except.ok (some petRec) ∧
    dictGet petRec.field_dict "owner"
      = some (Value.vRec "User" [("id", Value.vInt 1), ("name", Value.vStr "Ann")]) ∧
    Value.vRec "User" [("id", Value.vInt 1), ("name", Value.vStr "Ann")] ≠ Value.vInt 1 :=
  ⟨rfl, rfl, fun h => Value.noConfusion h⟩

/-- Claim C3, amended: foreign-key resolution is eager, not lazy.
`ForeignKey.get` performs the `bind_model.get(id=value)` lookup, `Model.get`
applies it to the stored id while decoding the fetched row, and a subsequent
attribute read returns the already-resolved record straight from
`field_dict` — `Record.getattr` takes no database at all, so no further
lookup can occur on reads. -/
theorem c3_eager_resolution :
    Field.get 1 db2 ownerField (Value.vInt 1)
      = Except.ok (Value.vRec "User" [("id", Value.vInt 1), ("name", Value.vStr "Ann")]) ∧
    Model.get 2 db2 petSchema [("id", Value.vInt 1)] = Except.ok (some petRec) ∧
    Record.getattr petSchema petRec "owner"
      = Value.vRec "User" [("id", Value.vInt 1), ("name", Value.vStr "Ann")] :=
  ⟨rfl, rfl, rfl⟩

/-- Claim C4, counterexample.  The claim says `getAll` with a zero-row
filter returns an empty sequence; the code's `if query_results:` guard falls
through and returns `None` (absence) instead of `[]`. -/
theorem c4_counterexample :
    Model.get_all db2 petSchema [("id", Value.vInt 99)] = Except.ok none ∧
    (Except.ok none : Except String (Option (List Record)))
      ≠ Except.ok (some ([] : List Record)) :=
  ⟨rfl, fun h => Option.noConfusion (Except.ok.inj h)⟩

/-- Claim C4, amended: on a filter matching zero rows `get` returns absence
(`None`), and `get_all` likewise returns absence (`None`) — not an empty
list. -/
theorem c4_zero_rows (fuel : Nat) (db : DB) (schema : ModelSchema) (filt : Dict) (t : Table)
    (h1 : DB.findTable db schema.name = some t)
    (h2 : t.rows.filter (fun row => rowMatches schema row filt) = []) :
    Model.get (fuel + 1) db schema filt = Except.ok none ∧
    Model.get_all db schema filt = Except.ok none := by
  have hfind : t.rows.find? (fun row => rowMatches schema row filt) = none := by
    rw [List.find?_eq_none]
    intro row hrow
    simpa using List.filter_eq_nil_iff.mp h2 row hrow
  constructor
  · show getStep (Model.get fuel) db schema filt = Except.ok none
    simp only [getStep, h1, hfind]
  · simp only [Model.get_all, h1, h2]
    rfl

/-- Claim C4, witness: the amended theorem applied to `Pet` filtered by
`id=99` on `db2`, which matches no row. -/
theorem c4_witness :
    DB.findTable db2 petSchema.name = some petTable ∧
    petTable.rows.filter (fun row => rowMatches petSchema row [("id", Value.vInt 99)]) = [] ∧
    Model.get (1 + 1) db2 petSchema [("id", Value.vInt 99)] = Except.ok none ∧
    Model.get_all db2 petSchema [("id", Value.vInt 99)] = Except.ok none :=
  ⟨rfl, rfl,
    (c4_zero_rows 1 db2 petSchema [("id", Value.vInt 99)] petTable rfl rfl).1,
    (c4_zero_rows 1 db2 petSchema [("id", Value.vInt 99)] petTable rfl rfl).2⟩

/-- Claim C5: `get_all` builds its records from the RAW fetched column
values — each record's `field_dict` is the (validated) zip of the schema's
field names with the row, with no `Field.get` decoding — so reading the
`owner` foreign key of the `Pet` record fetched by `get_all` yields the
stored integer id `1`, whereas `Model.get` decodes every column and hands
back the resolved `User` record instead. -/
theorem c5_get_all_raw (db : DB) (schema : ModelSchema) (filt : Dict) (t : Table)
    (recs : List Record) (row : List Value)
    (hnd : (schema.fields.map Field.name).Nodup)
    (h1 : DB.findTable db schema.name = some t)
    (h2 : Model.get_all db schema filt = Except.ok (some recs)) :
    recs = (t.rows.filter (fun row => rowMatches schema row filt)).map (fun query_result =>
      { Model.init schema (List.zip (schema.fields.map Field.name) query_result) with
          new := false }) ∧
    (Model.init schema (List.zip (schema.fields.map Field.name) row)).field_dict
      = (List.zip (schema.fields.map Field.name) row).filter (keptPair schema) ∧
    Model.get_all db2 petSchema [] = Except.ok (some [petRawRec]) ∧
    Record.getattr petSchema petRawRec "owner" = Value.vInt 1 ∧
    Model.get 2 db2 petSchema [("id", Value.vInt 1)] = Except.ok (some petRec) := by
  refine ⟨?_, ?_, rfl, rfl, rfl⟩
  · simp only [Model.get_all, h1] at h2
    split at h2
    · exact Option.noConfusion (Except.ok.inj h2)
    · exact (Option.some.inj (Except.ok.inj h2)).symm
  · have hkeys : ((List.zip (schema.fields.map Field.name) row).map Prod.fst).Nodup :=
      List.Nodup.sublist (map_fst_zip_sublist (schema.fields.map Field.name) row) hnd
    have hfold := init_foldl schema (List.zip (schema.fields.map Field.name) row) []
      (by intro kv _ p hp; cases hp) hkeys
    simpa [Model.init] using hfold

/-- Claim C5, witness: the theorem applied to `Pet.get_all()` on `db2`. -/
theorem c5_witness :
    ((petSchema.fields.map Field.name).Nodup ∧
      DB.findTable db2 petSchema.name = some petTable ∧
      Model.get_all db2 petSchema [] = Except.ok (some [petRawRec])) ∧
    ([petRawRec] = (petTable.rows.filter (fun row => rowMatches petSchema row [])).map
        (fun query_result =>
          { Model.init petSchema (List.zip (petSchema.fields.map Field.name) query_result) with
              new := false }) ∧
      (Model.init petSchema
          (List.zip (petSchema.fields.map Field.name) [Value.vInt 1, Value.vInt 1])).field_dict
        = (List.zip (petSchema.fields.map Field.name)
            [Value.vInt 1, Value.vInt 1]).filter (keptPair petSchema) ∧
      Model.get_all db2 petSchema [] = Except.ok (some [petRawRec]) ∧
      Record.getattr petSchema petRawRec "owner" = Value.vInt 1 ∧
      Model.get 2 db2 petSchema [("id", Value.vInt 1)] = Except.ok (some petRec)) :=
  ⟨⟨by decide, rfl, rfl⟩,
    c5_get_all_raw db2 petSchema [] petTable [petRawRec] [Value.vInt 1, Value.vInt 1]
      (by decide) rfl rfl⟩

/-- Claim C6: when the statement built by `presave` raises an integrity
violation, `save` catches it, logs the message, commits and returns
normally — nothing is raised to the caller and the outcome reports nothing
beyond the log line. -/
theorem c6_integrity_swallowed (exec : SqlStmt → Option String) (schema : ModelSchema)
    (r : Record) (stmt : SqlStmt) (msg : String)
    (h1 : Record.presave schema r = Except.ok stmt) (h2 : exec stmt = some msg) :
    Model.saveStep exec schema r
      = Except.ok (r, { executed := stmt, logged := some msg, committed := true }) := by
  simp only [Model.saveStep, h1, h2]

/-- Claim C6, witness: saving `annR` under the always-failing oracle logs
the constraint violation and still returns normally. -/
theorem c6_witness :
    Record.presave userSchema annR = Except.ok annInsert ∧
    execBad annInsert = some "UNIQUE constraint failed: User.name" ∧
    Model.saveStep execBad userSchema annR = Except.ok (annR, annBadOutcome) :=
  ⟨rfl, rfl, c6_integrity_swallowed execBad userSchema annR annInsert
    "UNIQUE constraint failed: User.name" rfl rfl⟩

/-- Claim C7: record construction stores exactly the supplied pairs whose
name is a declared field and whose value passes that field's `validate`
(everything else silently dropped), and the record starts in the new
state. -/
theorem c7_construct (schema : ModelSchema) (kwargs : Dict)
    (hnd : (kwargs.map Prod.fst).Nodup) :
    Model.init schema kwargs
      = { field_dict := kwargs.filter (keptPair schema), new := true } := by
  simp only [Model.init, Record.mk.injEq]
  refine ⟨?_, trivial⟩
  simpa using init_foldl schema kwargs [] (by intro kv _ p hp; cases hp) hnd

/-- Claim C7, witness: constructing a `T` record from a valid `a`, a `b`
failing text validation and an undeclared `zz` keeps only `a`. -/
theorem c7_witness :
    (kwargsW.map Prod.fst).Nodup ∧
    Model.init schemaT kwargsW = { field_dict := [("a", Value.vStr "x")], new := true } := by
  refine ⟨by decide, ?_⟩
  rw [c7_construct schemaT kwargsW (by decide)]
  rfl

/-- Claim C8: `TextField` encodes `O'Brien` as the SQL literal `'O''Brien'`
(single-quoted, embedded quotes doubled), and text decoding — the inherited
base `Field.get` — returns any stored value unchanged. -/
theorem c8_text_encoding :
    Field.prepare nameField (Value.vStr "O'Brien") = some (Value.vStr "'O''Brien'") ∧
    ∀ (fuel : Nat) (db : DB) (v : Value), Field.get fuel db nameField v = Except.ok v :=
  ⟨rfl, fun _ _ _ => rfl⟩

/-- Claim C9: `Database.init` executes one
`CREATE TABLE[ IF NOT EXISTS] <name> (<column defs in field order>);` per
registered model, in registration order — the `IF NOT EXISTS` clause present
exactly when the flag is set (see `createSql`) — and commits exactly once,
after all the executions. -/
theorem c9_initializeSchemas (db : DB) (not_exists : Bool) :
    Database.init db not_exists
      = db.tables.map (fun t => DbOp.exec (createSql not_exists t)) ++ [DbOp.commitOp] ∧
    (Database.init db not_exists).filter DbOp.isCommit = [DbOp.commitOp] := by
  have h : Database.init db not_exists
      = db.tables.map (fun t => DbOp.exec (createSql not_exists t)) ++ [DbOp.commitOp] := by
    unfold Database.init
    rw [init_ops not_exists db.tables []]
    rfl
  refine ⟨h, ?_⟩
  rw [h, List.filter_append, filter_isCommit_map_exec (fun t => createSql not_exists t)]
  rfl

/-- Claim C10: the `Database()` accessor called with no name raises the
"Database not set" configuration error when no instance exists, and returns
the existing instance unchanged when one does. -/
theorem c10_database_accessor :
    Database.new none none
      = Except.error "Database not set. Please, set the database name before defining the models" ∧
    ∀ i : DatabaseInstance, Database.new (some i) none = Except.ok i :=
  ⟨rfl, fun _ => rfl⟩

end Yeti
